import Mathlib

/-!
Verification of the serverbound packet layer of the ozelot protocol library.

The embedding models byte streams as `List Nat` (each element one byte),
machine integers as `Nat`/`Int` with explicit bounds, and fallible
encode/decode routines as `Except PacketError`.  The manually implemented
packets of `src/serverbound.rs` (StatusRequest, TabComplete, UseEntity,
CraftingBookData, AdvancementTab, plus the Handshake / EncryptionResponse
helper operations) are translated directly; the wire-primitive codec and
the generated packet declarations are not part of `src/` and are modelled
from the specification where a claim needs them.
-/

set_option maxHeartbeats 1000000

/-- Error kinds of the packet layer (spec section 7). -/
inductive PacketError where
  | ioFailure
  | malformedPrimitive
  | unknownPacket
  | invalidVariant (tag : Nat)
  | missingField (action : Nat)
  | invalidSecretLength
  | cryptoError
deriving DecidableEq

/-- Modelled from the spec: the write half of the variable-length integer
primitive (`write::write_varint` is not under src).  Seven data bits per
byte, high bit set on every byte but the last (section 6). -/
def write_varint (n : Nat) : List Nat :=
  if h : n < 128 then [n]
  else (n % 128 + 128) :: write_varint (n / 128)
termination_by n
decreasing_by exact Nat.div_lt_self (by omega) (by omega)

/-- Modelled from the spec: the read half of the variable-length integer
primitive, with a fuel bound of five bytes; more than five continuation
bytes fail (value too large for 32 bits), a stream that ends mid-sequence
fails as well (section 6). -/
def read_varint_aux : List Nat → Nat → Nat → Nat → Except PacketError (Nat × List Nat)
  | _, 0, _, _ => .error .malformedPrimitive
  | [], _ + 1, _, _ => .error .ioFailure
  | b :: s, fuel + 1, shift, acc =>
    if b < 128 then .ok (acc + b * 2 ^ shift, s)
    else read_varint_aux s fuel (shift + 7) (acc + (b - 128) * 2 ^ shift)

/-- Modelled from the spec: variable-length integer decode (section 6). -/
def read_varint (s : List Nat) : Except PacketError (Nat × List Nat) :=
  read_varint_aux s 5 0 0

/-- Modelled from the spec: read exactly `k` raw bytes, failing if the
stream ends first. -/
def read_bytes : Nat → List Nat → Except PacketError (List Nat × List Nat)
  | 0, s => .ok ([], s)
  | _ + 1, [] => .error .ioFailure
  | k + 1, b :: s =>
    match read_bytes k s with
    | .error e => .error e
    | .ok (bs, s2) => .ok (b :: bs, s2)

/-- Modelled from the spec: length-prefixed string encode — a
variable-length-integer byte length followed by the bytes (section 6).
Strings are carried as their UTF-8 byte lists. -/
def write_String (t : List Nat) : List Nat := write_varint t.length ++ t

/-- Modelled from the spec: length-prefixed string decode (section 6). -/
def read_String (s : List Nat) : Except PacketError (List Nat × List Nat) :=
  match read_varint s with
  | .error e => .error e
  | .ok (n, s1) => read_bytes n s1

/-- Modelled from the spec: boolean encode, exactly one byte, canonically
0 or 1 (section 6). -/
def write_bool (b : Bool) : List Nat := [if b then 1 else 0]

/-- Modelled from the spec: boolean decode reads one byte; a nonzero byte
reads as true (the spec leaves non-canonical bytes open, section 9). -/
def read_bool : List Nat → Except PacketError (Bool × List Nat)
  | [] => .error .ioFailure
  | b :: s => .ok (b != 0, s)

/-- Modelled from the spec: fixed-width big-endian encode of `k` bytes
(section 6). -/
def writeBE : Nat → Nat → List Nat
  | 0, _ => []
  | k + 1, n => n / 256 ^ k :: writeBE k (n % 256 ^ k)

/-- Modelled from the spec: fixed-width big-endian decode of `k` bytes. -/
def readBE_aux : Nat → Nat → List Nat → Except PacketError (Nat × List Nat)
  | 0, acc, s => .ok (acc, s)
  | _ + 1, _, [] => .error .ioFailure
  | k + 1, acc, b :: s => readBE_aux k (acc * 256 + b) s

/-- Modelled from the spec: 32-bit float values are carried as their
4-byte big-endian bit patterns; this layer performs no arithmetic on them
(section 6). -/
def write_f32 (n : Nat) : List Nat := writeBE 4 n

/-- Modelled from the spec: 32-bit float decode (bit pattern). -/
def read_f32 (s : List Nat) : Except PacketError (Nat × List Nat) :=
  readBE_aux 4 0 s

/-- Modelled from the spec: the packed block-position value, treated as an
opaque round-trippable fixed-width packed integer (section 6). -/
def write_position (n : Nat) : List Nat := writeBE 8 n

/-- Modelled from the spec: packed block-position decode. -/
def read_position (s : List Nat) : Except PacketError (Nat × List Nat) :=
  readBE_aux 8 0 s

/-- Modelled from the spec: 32-bit signed integer encode, fixed 4-byte
big-endian two's-complement (section 6). -/
def write_i32 (x : Int) : List Nat := writeBE 4 (x % 2 ^ 32).toNat

/-- Modelled from the spec: 32-bit signed integer decode. -/
def read_i32 (s : List Nat) : Except PacketError (Int × List Nat) :=
  match readBE_aux 4 0 s with
  | .error e => .error e
  | .ok (u, s1) => .ok (if u < 2 ^ 31 then (u : Int) else (u : Int) - 2 ^ 32, s1)

theorem read_varint_aux_append (fuel : Nat) :
    ∀ n shift acc rest, n < 128 ^ (fuel + 1) →
      read_varint_aux (write_varint n ++ rest) (fuel + 1) shift acc
        = .ok (acc + n * 2 ^ shift, rest) := by
  induction fuel with
  | zero =>
    intro n shift acc rest h
    have h128 : n < 128 := by simpa using h
    simp [write_varint, read_varint_aux, h128]
  | succ fuel ih =>
    intro n shift acc rest h
    by_cases hn : n < 128
    · simp [write_varint, read_varint_aux, hn]
    · rw [write_varint]
      simp only [hn, dite_false, List.cons_append]
      rw [read_varint_aux]
      have hb : ¬ (n % 128 + 128 < 128) := by omega
      simp only [hb, if_false]
      have hdiv : n / 128 < 128 ^ (fuel + 1) := by
        rw [Nat.div_lt_iff_lt_mul (by omega)]
        calc n < 128 ^ (fuel + 1 + 1) := h
        _ = 128 ^ (fuel + 1) * 128 := by rw [pow_succ]
      rw [show n % 128 + 128 - 128 = n % 128 by omega]
      rw [ih (n / 128) (shift + 7) (acc + n % 128 * 2 ^ shift) rest hdiv]
      congr 2
      have h2 : (2 : Nat) ^ (shift + 7) = 2 ^ shift * 128 := by
        rw [pow_add]; norm_num
      rw [h2]
      have h3 : n % 128 * 2 ^ shift + n / 128 * (2 ^ shift * 128)
          = (n % 128 + 128 * (n / 128)) * 2 ^ shift := by ring
      rw [add_assoc, h3, Nat.mod_add_div]

theorem read_write_varint (n : Nat) (rest : List Nat) (h : n < 128 ^ 5) :
    read_varint (write_varint n ++ rest) = .ok (n, rest) := by
  have := read_varint_aux_append 4 n 0 0 rest h
  simpa [read_varint] using this

theorem read_bytes_append (l rest : List Nat) :
    read_bytes l.length (l ++ rest) = .ok (l, rest) := by
  induction l with
  | nil => simp [read_bytes]
  | cons b l ih => simp [read_bytes, ih]

theorem read_write_String (t rest : List Nat) (h : t.length < 128 ^ 5) :
    read_String (write_String t ++ rest) = .ok (t, rest) := by
  rw [read_String, write_String, List.append_assoc, read_write_varint t.length (t ++ rest) h]
  simp [read_bytes_append]

theorem read_write_bool (b : Bool) (rest : List Nat) :
    read_bool (write_bool b ++ rest) = .ok (b, rest) := by
  cases b <;> simp [write_bool, read_bool]

theorem readBE_aux_append (k : Nat) :
    ∀ n acc rest, n < 256 ^ k →
      readBE_aux k acc (writeBE k n ++ rest) = .ok (acc * 256 ^ k + n, rest) := by
  induction k with
  | zero =>
    intro n acc rest h
    have : n = 0 := by omega
    simp [writeBE, readBE_aux, this]
  | succ k ih =>
    intro n acc rest h
    rw [writeBE]
    simp only [List.cons_append]
    rw [readBE_aux]
    rw [ih (n % 256 ^ k) (acc * 256 + n / 256 ^ k) rest (Nat.mod_lt _ (by positivity))]
    congr 2
    have hdm : 256 ^ k * (n / 256 ^ k) + n % 256 ^ k = n := Nat.div_add_mod n (256 ^ k)
    calc (acc * 256 + n / 256 ^ k) * 256 ^ k + n % 256 ^ k
        = acc * (256 ^ k * 256) + (256 ^ k * (n / 256 ^ k) + n % 256 ^ k) := by ring
    _ = acc * 256 ^ (k + 1) + n := by rw [hdm, pow_succ]

theorem read_write_f32 (n : Nat) (rest : List Nat) (h : n < 2 ^ 32) :
    read_f32 (write_f32 n ++ rest) = .ok (n, rest) := by
  have h' : n < 256 ^ 4 := by norm_num at h ⊢; omega
  have := readBE_aux_append 4 n 0 rest h'
  simpa [read_f32, write_f32] using this

theorem read_write_position (n : Nat) (rest : List Nat) (h : n < 2 ^ 64) :
    read_position (write_position n ++ rest) = .ok (n, rest) := by
  have h' : n < 256 ^ 8 := by norm_num at h ⊢; omega
  have := readBE_aux_append 8 n 0 rest h'
  simpa [read_position, write_position] using this

theorem read_write_i32 (x : Int) (rest : List Nat)
    (h1 : -(2 ^ 31) ≤ x) (h2 : x < 2 ^ 31) :
    read_i32 (write_i32 x ++ rest) = .ok (x, rest) := by
  have hu : (x % 2 ^ 32).toNat < 256 ^ 4 := by
    have := Int.emod_lt_of_pos x (show (0:Int) < 2 ^ 32 by norm_num)
    norm_num at this ⊢
    omega
  rw [read_i32, write_i32, readBE_aux_append 4 _ 0 rest hu]
  have hnn : (0:Int) ≤ x % 2 ^ 32 :=
    Int.emod_nonneg x (by norm_num)
  have hlt : x % 2 ^ 32 < 2 ^ 32 :=
    Int.emod_lt_of_pos x (by norm_num)
  have hcases : x % 2 ^ 32 = x ∨ x % 2 ^ 32 = x + 2 ^ 32 := by
    omega
  rcases hcases with hc | hc
  · have hsmall : (x % 2 ^ 32).toNat < 2 ^ 31 := by omega
    simp only [Nat.zero_mul, Nat.zero_add, hsmall, if_true]
    congr 2
    omega
  · have hbig : ¬ ((x % 2 ^ 32).toNat < 2 ^ 31) := by omega
    simp only [Nat.zero_mul, Nat.zero_add, hbig, if_false]
    congr 2
    omega

/-- The connection phase enumeration (`ClientState` in the library root,
not under src; spec section 3: Handshake, Status, Login, Play). -/
inductive ClientState where
  | Handshake
  | Status
  | Login
  | Play
deriving DecidableEq

/-- The TabComplete payload, with the fields the manual codec in
`src/serverbound.rs` reads and writes: text (UTF-8 byte list),
assume_command, and the optional looked-at block position (opaque packed
value). -/
structure TabComplete where
  text : List Nat
  assume_command : Bool
  looked_at_block : Option Nat
deriving DecidableEq

/-- The UseEntity payload: target and action (varint values), an optional
3-component float location (bit patterns), and an optional hand selector. -/
structure UseEntity where
  target : Nat
  action : Nat
  location : Option (Nat × Nat × Nat)
  hand : Option Nat
deriving DecidableEq

/-- The CraftingBookData payload: an optional displayed recipe (32-bit
signed integer) and an optional crafting book status (two booleans). -/
structure CraftingBookData where
  displayed_recipe : Option Int
  crafting_book_status : Option (Bool × Bool)
deriving DecidableEq

/-- The AdvancementTab payload: an optional tab identifier string. -/
structure AdvancementTab where
  tab_id : Option (List Nat)
deriving DecidableEq

/-- The StatusRequest payload: no fields. -/
structure StatusRequest where
deriving DecidableEq

/-- The Handshake payload.  Modelled from the spec: the generated struct
declaration is not under src; only the `next_state` field is in scope
(spec section 4.2), the remaining mechanically sequenced fields are out
of scope (section 1). -/
structure Handshake where
  next_state : Int
deriving DecidableEq

/-- The EncryptionResponse payload: the RSA-encrypted shared secret and
verify token, opaque byte buffers (spec section 3). -/
structure EncryptionResponse where
  shared_secret : List Nat
  verify_token : List Nat
deriving DecidableEq

/-- The discriminated union of decoded serverbound packets
(`ServerboundPacket`), restricted to the packet kinds in scope. -/
inductive ServerboundPacket where
  | StatusRequest (p : StatusRequest)
  | TabComplete (p : TabComplete)
  | UseEntity (p : UseEntity)
  | CraftingBookData (p : CraftingBookData)
  | AdvancementTab (p : AdvancementTab)
  | Handshake (p : Handshake)
  | EncryptionResponse (p : EncryptionResponse)
deriving DecidableEq

/-- `Handshake::get_next_clientstate`: the next state as a ClientState,
if the value is valid (src/serverbound.rs lines 26-32). -/
def Handshake.get_next_clientstate (h : Handshake) : Option ClientState :=
  match h.next_state with
  | 1 => some ClientState.Status
  | 2 => some ClientState.Login
  | _ => none

/-- `EncryptionResponse::get_decrypted_shared_secret`
(src/serverbound.rs lines 36-46).  Modelled from the spec in one respect:
`utils::rsa_decrypt` (the Cryptography Interface, spec section 6) is not
under src and is abstracted as the function argument `rsaDecrypt`
(the private key is already applied).  The copy loop `ret[i] = tmp[i]`
for i in 0..16 is rendered as a map over `List.range 16`. -/
def EncryptionResponse.get_decrypted_shared_secret
    (rsaDecrypt : List Nat → Except PacketError (List Nat))
    (p : EncryptionResponse) : Except PacketError (List Nat) :=
  match rsaDecrypt p.shared_secret with
  | .error e => .error e
  | .ok tmp =>
    if tmp.length ≠ 16 then .error .invalidSecretLength
    else .ok ((List.range 16).map fun i => tmp.getD i 0)

/-- `EncryptionResponse::get_decrypted_verify_token`
(src/serverbound.rs lines 47-49): decrypts and returns the plaintext
verbatim. -/
def EncryptionResponse.get_decrypted_verify_token
    (rsaDecrypt : List Nat → Except PacketError (List Nat))
    (p : EncryptionResponse) : Except PacketError (List Nat) :=
  rsaDecrypt p.verify_token

/-- `StatusRequest::to_u8` (src/serverbound.rs lines 53-57): emits only
the packet id.  The numeric PACKET_ID constants live in the generated
catalog, not under src, so the id is abstracted as the argument `pid`
throughout. -/
def StatusRequest.to_u8 (pid : Nat) (_p : StatusRequest) :
    Except PacketError (List Nat) :=
  .ok (write_varint pid)

/-- `StatusRequest::deserialize` (src/serverbound.rs lines 58-60):
reads nothing and returns the empty payload. -/
def StatusRequest.deserialize (s : List Nat) :
    Except PacketError (ServerboundPacket × List Nat) :=
  .ok (.StatusRequest ⟨⟩, s)

/-- `TabComplete::to_u8` (src/serverbound.rs lines 64-79): id, text,
assume_command, then presence flag true plus the position, or presence
flag false alone. -/
def TabComplete.to_u8 (pid : Nat) (p : TabComplete) :
    Except PacketError (List Nat) :=
  .ok (write_varint pid ++ write_String p.text ++ write_bool p.assume_command ++
    match p.looked_at_block with
    | some x => write_bool true ++ write_position x
    | none => write_bool false)

/-- `TabComplete::deserialize` (src/serverbound.rs lines 80-95): text,
assume_command, presence flag, then a position exactly when the flag is
true. -/
def TabComplete.deserialize (s : List Nat) :
    Except PacketError (ServerboundPacket × List Nat) :=
  match read_String s with
  | .error e => .error e
  | .ok (text, s1) =>
    match read_bool s1 with
    | .error e => .error e
    | .ok (assume_command, s2) =>
      match read_bool s2 with
      | .error e => .error e
      | .ok (has_position, s3) =>
        if has_position then
          match read_position s3 with
          | .error e => .error e
          | .ok (x, s4) =>
            .ok (.TabComplete ⟨text, assume_command, some x⟩, s4)
        else
          .ok (.TabComplete ⟨text, assume_command, none⟩, s3)

/-- `UseEntity::to_u8` (src/serverbound.rs lines 99-128): id, target,
action; if action is 2 the location must be present (else a MissingField
failure), and it is written as three floats; if action is 0 or 2 the hand
must be present (else a MissingField failure carrying the action), and it
is written as a varint. -/
def UseEntity.to_u8 (pid : Nat) (p : UseEntity) :
    Except PacketError (List Nat) :=
  match (if p.action = 2 then
           match p.location with
           | some (x, y, z) =>
             Except.ok (write_f32 x ++ write_f32 y ++ write_f32 z)
           | none => Except.error (PacketError.missingField 2)
         else Except.ok []) with
  | .error e => .error e
  | .ok locBytes =>
    match (if p.action = 0 ∨ p.action = 2 then
             match p.hand with
             | some x => Except.ok (write_varint x)
             | none => Except.error (PacketError.missingField p.action)
           else Except.ok []) with
    | .error e => .error e
    | .ok handBytes =>
      .ok (write_varint pid ++ write_varint p.target ++ write_varint p.action
        ++ locBytes ++ handBytes)

/-- The conditional location read of `UseEntity::deserialize`
(src/serverbound.rs lines 133-137): three floats exactly when action is
2, nothing otherwise. -/
def UseEntity.read_location (action : Nat) (s : List Nat) :
    Except PacketError (Option (Nat × Nat × Nat) × List Nat) :=
  if action = 2 then
    match read_f32 s with
    | .error e => .error e
    | .ok (x, s3) =>
      match read_f32 s3 with
      | .error e => .error e
      | .ok (y, s4) =>
        match read_f32 s4 with
        | .error e => .error e
        | .ok (z, s5) => .ok (some (x, y, z), s5)
  else .ok (none, s)

/-- The conditional hand read of `UseEntity::deserialize`
(src/serverbound.rs lines 139-143): a varint exactly when action is 0 or
2, nothing otherwise. -/
def UseEntity.read_hand (action : Nat) (s : List Nat) :
    Except PacketError (Option Nat × List Nat) :=
  if action = 0 ∨ action = 2 then
    match read_varint s with
    | .error e => .error e
    | .ok (h, s7) => .ok (some h, s7)
  else .ok (none, s)

/-- `UseEntity::deserialize` (src/serverbound.rs lines 129-151): target,
action, then a 3-float location exactly when action is 2, then a varint
hand exactly when action is 0 or 2. -/
def UseEntity.deserialize (s : List Nat) :
    Except PacketError (ServerboundPacket × List Nat) :=
  match read_varint s with
  | .error e => .error e
  | .ok (target, s1) =>
    match read_varint s1 with
    | .error e => .error e
    | .ok (action, s2) =>
      match UseEntity.read_location action s2 with
      | .error e => .error e
      | .ok (location, s6) =>
        match UseEntity.read_hand action s6 with
        | .error e => .error e
        | .ok (hand, s8) =>
          .ok (.UseEntity ⟨target, action, location, hand⟩, s8)

/-- `CraftingBookData::to_u8` (src/serverbound.rs lines 154-166): id,
then tag 0 and the recipe integer if displayed_recipe is set, else tag 1
and the two booleans if crafting_book_status is set, else nothing. -/
def CraftingBookData.to_u8 (pid : Nat) (p : CraftingBookData) :
    Except PacketError (List Nat) :=
  .ok (write_varint pid ++
    match p.displayed_recipe with
    | some x => write_varint 0 ++ write_i32 x
    | none =>
      match p.crafting_book_status with
      | some (book_open, filter) =>
        write_varint 1 ++ write_bool book_open ++ write_bool filter
      | none => [])

/-- `CraftingBookData::deserialize` (src/serverbound.rs lines 168-179):
reads the tag, then the matching fields; any other tag fails with an
InvalidVariant failure carrying the tag. -/
def CraftingBookData.deserialize (s : List Nat) :
    Except PacketError (ServerboundPacket × List Nat) :=
  match read_varint s with
  | .error e => .error e
  | .ok (typee, s1) =>
    match typee with
    | 0 =>
      match read_i32 s1 with
      | .error e => .error e
      | .ok (r, s2) => .ok (.CraftingBookData ⟨some r, none⟩, s2)
    | 1 =>
      match read_bool s1 with
      | .error e => .error e
      | .ok (b1, s2) =>
        match read_bool s2 with
        | .error e => .error e
        | .ok (b2, s3) =>
          .ok (.CraftingBookData ⟨none, some (b1, b2)⟩, s3)
    | t + 2 => .error (.invalidVariant (t + 2))

/-- `AdvancementTab::to_u8` (src/serverbound.rs lines 183-194): id, then
tag 0 and the string when tab_id is set, else tag 1 alone. -/
def AdvancementTab.to_u8 (pid : Nat) (p : AdvancementTab) :
    Except PacketError (List Nat) :=
  .ok (write_varint pid ++
    match p.tab_id with
    | some t => write_varint 0 ++ write_String t
    | none => write_varint 1)

/-- `AdvancementTab::deserialize` (src/serverbound.rs lines 195-206):
reads the tag; tag 0 reads the string, tag 1 reads nothing, any other tag
fails with an InvalidVariant failure carrying the tag. -/
def AdvancementTab.deserialize (s : List Nat) :
    Except PacketError (ServerboundPacket × List Nat) :=
  match read_varint s with
  | .error e => .error e
  | .ok (action, s1) =>
    match action with
    | 0 =>
      match read_String s1 with
      | .error e => .error e
      | .ok (t, s2) => .ok (.AdvancementTab ⟨some t⟩, s2)
    | 1 => .ok (.AdvancementTab ⟨none⟩, s1)
    | t + 2 => .error (.invalidVariant (t + 2))

/-- Modelled from the spec: the Handshake codec is generated and not
under src; per spec section 1 its layout is a fixed unconditional field
sequence, and only the next_state field (a variable-length integer) is in
scope here (section 4.2). -/
def Handshake.to_u8 (pid : Nat) (p : Handshake) :
    Except PacketError (List Nat) :=
  .ok (write_varint pid ++ write_varint p.next_state.toNat)

/-- Modelled from the spec: decode half of the Handshake codec. -/
def Handshake.deserialize (s : List Nat) :
    Except PacketError (ServerboundPacket × List Nat) :=
  match read_varint s with
  | .error e => .error e
  | .ok (ns, s1) => .ok (.Handshake ⟨(ns : Int)⟩, s1)

/-- Modelled from the spec: the EncryptionResponse codec is generated and
not under src; the two opaque byte buffers are carried length-prefixed in
order (spec sections 3 and 6). -/
def EncryptionResponse.to_u8 (pid : Nat) (p : EncryptionResponse) :
    Except PacketError (List Nat) :=
  .ok (write_varint pid ++ write_String p.shared_secret ++
    write_String p.verify_token)

/-- Modelled from the spec: decode half of the EncryptionResponse codec. -/
def EncryptionResponse.deserialize (s : List Nat) :
    Except PacketError (ServerboundPacket × List Nat) :=
  match read_String s with
  | .error e => .error e
  | .ok (ss, s1) =>
    match read_String s1 with
    | .error e => .error e
    | .ok (vt, s2) => .ok (.EncryptionResponse ⟨ss, vt⟩, s2)

/-- Encode invariants for TabComplete: the string length fits a varint
length prefix and the packed position fits its fixed width. -/
def TabComplete.wf (p : TabComplete) : Prop :=
  p.text.length < 2 ^ 32 ∧ ∀ x ∈ p.looked_at_block, x < 2 ^ 64

/-- Encode invariants for UseEntity (spec section 3: encode must include
exactly the fields implied by the discriminant and no others): the varint
fields fit 32 bits, the location is present exactly when action is 2 and
the hand exactly when action is 0 or 2. -/
def UseEntity.wf (p : UseEntity) : Prop :=
  p.target < 2 ^ 32 ∧ p.action < 2 ^ 32 ∧
  (p.location.isSome ↔ p.action = 2) ∧
  (p.hand.isSome ↔ (p.action = 0 ∨ p.action = 2)) ∧
  (∀ l ∈ p.location, l.1 < 2 ^ 32 ∧ l.2.1 < 2 ^ 32 ∧ l.2.2 < 2 ^ 32) ∧
  (∀ x ∈ p.hand, x < 2 ^ 32)

/-- Encode invariants for CraftingBookData: the recipe is a 32-bit signed
value and exactly one of the two optional fields is set. -/
def CraftingBookData.wf (p : CraftingBookData) : Prop :=
  (∀ r ∈ p.displayed_recipe, -(2 ^ 31) ≤ r ∧ r < 2 ^ 31) ∧
  (p.displayed_recipe.isSome ↔ p.crafting_book_status = none)

/-- Encode invariants for AdvancementTab: the tab id string length fits a
varint length prefix. -/
def AdvancementTab.wf (p : AdvancementTab) : Prop :=
  ∀ t ∈ p.tab_id, t.length < 2 ^ 32

/-- Encode invariants for the modelled Handshake codec: next_state is a
non-negative 32-bit value. -/
def Handshake.wf (p : Handshake) : Prop :=
  0 ≤ p.next_state ∧ p.next_state < 2 ^ 32

/-- Encode invariants for the modelled EncryptionResponse codec: both
buffer lengths fit a varint length prefix. -/
def EncryptionResponse.wf (p : EncryptionResponse) : Prop :=
  p.shared_secret.length < 2 ^ 32 ∧ p.verify_token.length < 2 ^ 32

theorem lt_pow5_of_lt_pow32 {n : Nat} (h : n < 2 ^ 32) : n < 128 ^ 5 := by
  norm_num at h ⊢
  omega

theorem statusRequest_roundtrip (pid : Nat) (p : StatusRequest) (rest : List Nat) :
    ∃ B, StatusRequest.to_u8 pid p = .ok (write_varint pid ++ B) ∧
      StatusRequest.deserialize (B ++ rest) = .ok (.StatusRequest p, rest) := by
  exact ⟨[], by simp [StatusRequest.to_u8], by simp [StatusRequest.deserialize]⟩

theorem tabComplete_roundtrip (pid : Nat) (p : TabComplete) (rest : List Nat)
    (hp : p.wf) :
    ∃ B, TabComplete.to_u8 pid p = .ok (write_varint pid ++ B) ∧
      TabComplete.deserialize (B ++ rest) = .ok (.TabComplete p, rest) := by
  obtain ⟨text, assume_command, looked_at_block⟩ := p
  obtain ⟨ht, hpos⟩ := hp
  have ht5 : text.length < 128 ^ 5 := lt_pow5_of_lt_pow32 ht
  cases looked_at_block with
  | none =>
    refine ⟨write_String text ++ write_bool assume_command ++ write_bool false,
      by simp [TabComplete.to_u8], ?_⟩
    simp [TabComplete.deserialize, List.append_assoc,
      read_write_String _ _ ht5, read_write_bool]
  | some x =>
    have hx : x < 2 ^ 64 := hpos x (by simp)
    refine ⟨write_String text ++ write_bool assume_command ++
      (write_bool true ++ write_position x),
      by simp [TabComplete.to_u8], ?_⟩
    simp [TabComplete.deserialize, List.append_assoc,
      read_write_String _ _ ht5, read_write_bool, read_write_position _ _ hx]

theorem useEntity_roundtrip (pid : Nat) (p : UseEntity) (rest : List Nat)
    (hp : p.wf) :
    ∃ B, UseEntity.to_u8 pid p = .ok (write_varint pid ++ B) ∧
      UseEntity.deserialize (B ++ rest) = .ok (.UseEntity p, rest) := by
  obtain ⟨target, action, location, hand⟩ := p
  obtain ⟨htg, hac, hliff, hhiff, hlb, hhb⟩ := hp
  simp only at htg hac hliff hhiff hlb hhb
  have htg5 : target < 128 ^ 5 := lt_pow5_of_lt_pow32 htg
  have hac5 : action < 128 ^ 5 := lt_pow5_of_lt_pow32 hac
  by_cases ha2 : action = 2
  · subst ha2
    obtain ⟨⟨x, y, z⟩, hloc⟩ := Option.isSome_iff_exists.mp (hliff.mpr rfl)
    obtain ⟨hd, hhand⟩ := Option.isSome_iff_exists.mp (hhiff.mpr (Or.inr rfl))
    subst hloc; subst hhand
    obtain ⟨hx, hy, hz⟩ := hlb (x, y, z) (by simp)
    have hhd : hd < 2 ^ 32 := hhb hd (by simp)
    refine ⟨write_varint target ++ write_varint 2 ++
      (write_f32 x ++ write_f32 y ++ write_f32 z) ++ write_varint hd,
      by simp [UseEntity.to_u8], ?_⟩
    simp [UseEntity.deserialize, UseEntity.read_location, UseEntity.read_hand,
      List.append_assoc,
      read_write_varint _ _ htg5, read_write_varint _ _ (by norm_num : (2:Nat) < 128 ^ 5),
      read_write_varint _ _ (lt_pow5_of_lt_pow32 hhd),
      read_write_f32 _ _ hx, read_write_f32 _ _ hy, read_write_f32 _ _ hz]
  · by_cases ha0 : action = 0
    · subst ha0
      have hlnone : location = none := by
        cases location with
        | none => rfl
        | some l => exact absurd (hliff.mp (by simp)) (by omega)
      obtain ⟨hd, hhand⟩ := Option.isSome_iff_exists.mp (hhiff.mpr (Or.inl rfl))
      subst hlnone; subst hhand
      have hhd : hd < 2 ^ 32 := hhb hd (by simp)
      refine ⟨write_varint target ++ write_varint 0 ++ write_varint hd,
        by simp [UseEntity.to_u8], ?_⟩
      simp [UseEntity.deserialize, UseEntity.read_location, UseEntity.read_hand,
        List.append_assoc,
        read_write_varint _ _ htg5, read_write_varint _ _ (by norm_num : (0:Nat) < 128 ^ 5),
        read_write_varint _ _ (lt_pow5_of_lt_pow32 hhd)]
    · have hlnone : location = none := by
        cases location with
        | none => rfl
        | some l => exact absurd (hliff.mp (by simp)) ha2
      have hhnone : hand = none := by
        cases hand with
        | none => rfl
        | some h => exact absurd (hhiff.mp (by simp)) (by tauto)
      subst hlnone; subst hhnone
      refine ⟨write_varint target ++ write_varint action,
        by simp [UseEntity.to_u8, ha2, ha0], ?_⟩
      simp [UseEntity.deserialize, UseEntity.read_location, UseEntity.read_hand,
        List.append_assoc, ha2, ha0,
        read_write_varint _ _ htg5, read_write_varint _ _ hac5]

theorem craftingBookData_roundtrip (pid : Nat) (p : CraftingBookData)
    (rest : List Nat) (hp : p.wf) :
    ∃ B, CraftingBookData.to_u8 pid p = .ok (write_varint pid ++ B) ∧
      CraftingBookData.deserialize (B ++ rest) = .ok (.CraftingBookData p, rest) := by
  obtain ⟨displayed_recipe, crafting_book_status⟩ := p
  obtain ⟨hrb, hiff⟩ := hp
  simp only at hrb hiff
  cases displayed_recipe with
  | some r =>
    have hst : crafting_book_status = none := hiff.mp (by simp)
    subst hst
    obtain ⟨hr1, hr2⟩ := hrb r (by simp)
    refine ⟨write_varint 0 ++ write_i32 r,
      by simp [CraftingBookData.to_u8], ?_⟩
    simp [CraftingBookData.deserialize, List.append_assoc,
      read_write_varint _ _ (by norm_num : (0:Nat) < 128 ^ 5),
      read_write_i32 _ _ hr1 hr2]
  | none =>
    have hst : crafting_book_status ≠ none := by
      intro hc
      exact (by simp [hc] at hiff)
    obtain ⟨⟨b1, b2⟩, hs⟩ := Option.ne_none_iff_exists'.mp hst
    subst hs
    refine ⟨write_varint 1 ++ write_bool b1 ++ write_bool b2,
      by simp [CraftingBookData.to_u8], ?_⟩
    simp [CraftingBookData.deserialize, List.append_assoc,
      read_write_varint _ _ (by norm_num : (1:Nat) < 128 ^ 5), read_write_bool]

theorem advancementTab_roundtrip (pid : Nat) (p : AdvancementTab)
    (rest : List Nat) (hp : p.wf) :
    ∃ B, AdvancementTab.to_u8 pid p = .ok (write_varint pid ++ B) ∧
      AdvancementTab.deserialize (B ++ rest) = .ok (.AdvancementTab p, rest) := by
  obtain ⟨tab_id⟩ := p
  cases tab_id with
  | some t =>
    have ht : t.length < 2 ^ 32 := hp t (by simp)
    refine ⟨write_varint 0 ++ write_String t,
      by simp [AdvancementTab.to_u8], ?_⟩
    simp [AdvancementTab.deserialize, List.append_assoc,
      read_write_varint _ _ (by norm_num : (0:Nat) < 128 ^ 5),
      read_write_String _ _ (lt_pow5_of_lt_pow32 ht)]
  | none =>
    refine ⟨write_varint 1, by simp [AdvancementTab.to_u8], ?_⟩
    simp [AdvancementTab.deserialize, List.append_assoc,
      read_write_varint _ _ (by norm_num : (1:Nat) < 128 ^ 5)]

theorem handshake_roundtrip (pid : Nat) (p : Handshake) (rest : List Nat)
    (hp : p.wf) :
    ∃ B, Handshake.to_u8 pid p = .ok (write_varint pid ++ B) ∧
      Handshake.deserialize (B ++ rest) = .ok (.Handshake p, rest) := by
  obtain ⟨next_state⟩ := p
  obtain ⟨h0, h32⟩ := hp
  simp only at h0 h32
  have hn : next_state.toNat < 128 ^ 5 := by
    apply lt_pow5_of_lt_pow32
    omega
  refine ⟨write_varint next_state.toNat, by simp [Handshake.to_u8], ?_⟩
  simp [Handshake.deserialize, read_write_varint _ _ hn]
  omega

theorem encryptionResponse_roundtrip (pid : Nat) (p : EncryptionResponse)
    (rest : List Nat) (hp : p.wf) :
    ∃ B, EncryptionResponse.to_u8 pid p = .ok (write_varint pid ++ B) ∧
      EncryptionResponse.deserialize (B ++ rest) = .ok (.EncryptionResponse p, rest) := by
  obtain ⟨ss, vt⟩ := p
  obtain ⟨hss, hvt⟩ := hp
  refine ⟨write_String ss ++ write_String vt,
    by simp [EncryptionResponse.to_u8], ?_⟩
  simp [EncryptionResponse.deserialize, List.append_assoc,
    read_write_String _ _ (lt_pow5_of_lt_pow32 hss),
    read_write_String _ _ (lt_pow5_of_lt_pow32 hvt)]

/-- C1: for every packet kind in scope (StatusRequest, TabComplete,
UseEntity, CraftingBookData, AdvancementTab, Handshake,
EncryptionResponse) and every payload satisfying that kind's encode
invariants, decoding the bytes produced by encoding the payload — after
the packet id prefix is consumed by dispatch — yields the same payload
and consumes exactly the encoded bytes. -/
theorem C1_roundtrip_all :
    (∀ pid p rest, ∃ bytes, StatusRequest.to_u8 pid p = .ok bytes ∧
      StatusRequest.deserialize (bytes.drop (write_varint pid).length ++ rest)
        = .ok (.StatusRequest p, rest)) ∧
    (∀ pid p rest, TabComplete.wf p →
      ∃ bytes, TabComplete.to_u8 pid p = .ok bytes ∧
        TabComplete.deserialize (bytes.drop (write_varint pid).length ++ rest)
          = .ok (.TabComplete p, rest)) ∧
    (∀ pid p rest, UseEntity.wf p →
      ∃ bytes, UseEntity.to_u8 pid p = .ok bytes ∧
        UseEntity.deserialize (bytes.drop (write_varint pid).length ++ rest)
          = .ok (.UseEntity p, rest)) ∧
    (∀ pid p rest, CraftingBookData.wf p →
      ∃ bytes, CraftingBookData.to_u8 pid p = .ok bytes ∧
        CraftingBookData.deserialize (bytes.drop (write_varint pid).length ++ rest)
          = .ok (.CraftingBookData p, rest)) ∧
    (∀ pid p rest, AdvancementTab.wf p →
      ∃ bytes, AdvancementTab.to_u8 pid p = .ok bytes ∧
        AdvancementTab.deserialize (bytes.drop (write_varint pid).length ++ rest)
          = .ok (.AdvancementTab p, rest)) ∧
    (∀ pid p rest, Handshake.wf p →
      ∃ bytes, Handshake.to_u8 pid p = .ok bytes ∧
        Handshake.deserialize (bytes.drop (write_varint pid).length ++ rest)
          = .ok (.Handshake p, rest)) ∧
    (∀ pid p rest, EncryptionResponse.wf p →
      ∃ bytes, EncryptionResponse.to_u8 pid p = .ok bytes ∧
        EncryptionResponse.deserialize (bytes.drop (write_varint pid).length ++ rest)
          = .ok (.EncryptionResponse p, rest)) := by
  refine ⟨?_, ?_, ?_, ?_, ?_, ?_, ?_⟩
  · intro pid p rest
    obtain ⟨B, h1, h2⟩ := statusRequest_roundtrip pid p rest
    exact ⟨write_varint pid ++ B, h1, by rw [List.drop_left]; exact h2⟩
  · intro pid p rest hp
    obtain ⟨B, h1, h2⟩ := tabComplete_roundtrip pid p rest hp
    exact ⟨write_varint pid ++ B, h1, by rw [List.drop_left]; exact h2⟩
  · intro pid p rest hp
    obtain ⟨B, h1, h2⟩ := useEntity_roundtrip pid p rest hp
    exact ⟨write_varint pid ++ B, h1, by rw [List.drop_left]; exact h2⟩
  · intro pid p rest hp
    obtain ⟨B, h1, h2⟩ := craftingBookData_roundtrip pid p rest hp
    exact ⟨write_varint pid ++ B, h1, by rw [List.drop_left]; exact h2⟩
  · intro pid p rest hp
    obtain ⟨B, h1, h2⟩ := advancementTab_roundtrip pid p rest hp
    exact ⟨write_varint pid ++ B, h1, by rw [List.drop_left]; exact h2⟩
  · intro pid p rest hp
    obtain ⟨B, h1, h2⟩ := handshake_roundtrip pid p rest hp
    exact ⟨write_varint pid ++ B, h1, by rw [List.drop_left]; exact h2⟩
  · intro pid p rest hp
    obtain ⟨B, h1, h2⟩ := encryptionResponse_roundtrip pid p rest hp
    exact ⟨write_varint pid ++ B, h1, by rw [List.drop_left]; exact h2⟩

/-- Witness for C1: the round-trip law applied to one concrete payload of
each packet kind, with every encode invariant discharged concretely. -/
theorem C1_roundtrip_all_witness :
    (∃ bytes, StatusRequest.to_u8 3 ⟨⟩ = .ok bytes ∧
      StatusRequest.deserialize (bytes.drop (write_varint 3).length ++ [7])
        = .ok (.StatusRequest ⟨⟩, [7])) ∧
    (∃ bytes, TabComplete.to_u8 3 ⟨[102, 111, 111], true, none⟩ = .ok bytes ∧
      TabComplete.deserialize (bytes.drop (write_varint 3).length ++ [7])
        = .ok (.TabComplete ⟨[102, 111, 111], true, none⟩, [7])) ∧
    (∃ bytes, UseEntity.to_u8 3 ⟨5, 2, some (1, 2, 3), some 0⟩ = .ok bytes ∧
      UseEntity.deserialize (bytes.drop (write_varint 3).length ++ [7])
        = .ok (.UseEntity ⟨5, 2, some (1, 2, 3), some 0⟩, [7])) ∧
    (∃ bytes, CraftingBookData.to_u8 3 ⟨some 7, none⟩ = .ok bytes ∧
      CraftingBookData.deserialize (bytes.drop (write_varint 3).length ++ [7])
        = .ok (.CraftingBookData ⟨some 7, none⟩, [7])) ∧
    (∃ bytes, AdvancementTab.to_u8 3 ⟨some [114, 111, 111, 116]⟩ = .ok bytes ∧
      AdvancementTab.deserialize (bytes.drop (write_varint 3).length ++ [7])
        = .ok (.AdvancementTab ⟨some [114, 111, 111, 116]⟩, [7])) ∧
    (∃ bytes, Handshake.to_u8 3 ⟨1⟩ = .ok bytes ∧
      Handshake.deserialize (bytes.drop (write_varint 3).length ++ [7])
        = .ok (.Handshake ⟨1⟩, [7])) ∧
    (∃ bytes, EncryptionResponse.to_u8 3 ⟨[1, 2], [4]⟩ = .ok bytes ∧
      EncryptionResponse.deserialize (bytes.drop (write_varint 3).length ++ [7])
        = .ok (.EncryptionResponse ⟨[1, 2], [4]⟩, [7])) :=
  ⟨C1_roundtrip_all.1 3 ⟨⟩ [7],
   C1_roundtrip_all.2.1 3 ⟨[102, 111, 111], true, none⟩ [7]
     ⟨by norm_num, fun x hx => absurd hx (Option.not_mem_none x)⟩,
   C1_roundtrip_all.2.2.1 3 ⟨5, 2, some (1, 2, 3), some 0⟩ [7]
     (by norm_num [UseEntity.wf]),
   C1_roundtrip_all.2.2.2.1 3 ⟨some 7, none⟩ [7]
     (by norm_num [CraftingBookData.wf]),
   C1_roundtrip_all.2.2.2.2.1 3 ⟨some [114, 111, 111, 116]⟩ [7]
     (by norm_num [AdvancementTab.wf]),
   C1_roundtrip_all.2.2.2.2.2.1 3 ⟨1⟩ [7]
     (by norm_num [Handshake.wf]),
   C1_roundtrip_all.2.2.2.2.2.2 3 ⟨[1, 2], [4]⟩ [7]
     (by norm_num [EncryptionResponse.wf])⟩

/-- C2: UseEntity encode fails with MissingField when action is 2 and the
location is absent, fails with MissingField carrying the action value
when action is 0 or 2 and the hand is absent, in particular the payload
with action 2, no location and hand 0 fails with MissingField referencing
action 2; on success it emits the id, target, action, the location
exactly when action is 2 and the hand exactly when action is 0 or 2, and
no other bytes. -/
theorem C2_useEntity_encode :
    (∀ pid p, p.action = 2 → p.location = none →
      UseEntity.to_u8 pid p = .error (.missingField 2)) ∧
    (∀ pid p, (p.action = 0 ∨ p.action = 2) → p.hand = none →
      UseEntity.to_u8 pid p = .error (.missingField p.action)) ∧
    (∀ pid t, UseEntity.to_u8 pid ⟨t, 2, none, some 0⟩
      = .error (.missingField 2)) ∧
    (∀ pid p bytes, UseEntity.to_u8 pid p = .ok bytes →
      bytes = write_varint pid ++ write_varint p.target ++ write_varint p.action ++
        (if p.action = 2 then
           match p.location with
           | some (x, y, z) => write_f32 x ++ write_f32 y ++ write_f32 z
           | none => []
         else []) ++
        (if p.action = 0 ∨ p.action = 2 then
           match p.hand with
           | some x => write_varint x
           | none => []
         else [])) := by
  refine ⟨?_, ?_, ?_, ?_⟩
  · intro pid p ha hl
    simp [UseEntity.to_u8, ha, hl]
  · intro pid p ha hh
    rcases ha with ha | ha
    · simp [UseEntity.to_u8, ha, hh]
    · cases hl : p.location with
      | none => simp [UseEntity.to_u8, ha, hl]
      | some l =>
        obtain ⟨x, y, z⟩ := l
        simp [UseEntity.to_u8, ha, hl, hh]
  · intro pid t
    simp [UseEntity.to_u8]
  · intro pid p bytes h
    by_cases ha2 : p.action = 2
    · cases hl : p.location with
      | none => simp [UseEntity.to_u8, ha2, hl] at h
      | some l =>
        obtain ⟨x, y, z⟩ := l
        cases hh : p.hand with
        | none => simp [UseEntity.to_u8, ha2, hl, hh] at h
        | some hd =>
          simp [UseEntity.to_u8, ha2, hl, hh] at h
          simp [ha2, hl, hh, ← h, List.append_assoc]
    · by_cases ha0 : p.action = 0
      · cases hh : p.hand with
        | none => simp [UseEntity.to_u8, ha2, ha0, hh] at h
        | some hd =>
          simp [UseEntity.to_u8, ha2, ha0, hh] at h
          simp [ha2, ha0, hh, ← h, List.append_assoc]
      · simp [UseEntity.to_u8, ha2, ha0] at h
        simp [ha2, ha0, ← h, List.append_assoc]

/-- Witness for C2: each branch at a concrete payload — action 2 with no
location, action 0 with no hand, the specific spec example, and a
successful encode of action 0 with hand 1. -/
theorem C2_useEntity_encode_witness :
    UseEntity.to_u8 3 ⟨5, 2, none, some 0⟩ = .error (.missingField 2) ∧
    UseEntity.to_u8 3 ⟨5, 0, none, none⟩ = .error (.missingField 0) ∧
    UseEntity.to_u8 3 ⟨9, 2, none, some 0⟩ = .error (.missingField 2) ∧
    write_varint 10 ++ write_varint 5 ++ write_varint 0 ++ [] ++ write_varint 1
      = write_varint 10 ++ write_varint 5 ++ write_varint 0 ++
        (if (0 : Nat) = 2 then
           match (none : Option (Nat × Nat × Nat)) with
           | some (x, y, z) => write_f32 x ++ write_f32 y ++ write_f32 z
           | none => []
         else []) ++
        (if (0 : Nat) = 0 ∨ (0 : Nat) = 2 then
           match some 1 with
           | some x => write_varint x
           | none => []
         else []) :=
  ⟨C2_useEntity_encode.1 3 ⟨5, 2, none, some 0⟩ rfl rfl,
   C2_useEntity_encode.2.1 3 ⟨5, 0, none, none⟩ (Or.inl rfl) rfl,
   C2_useEntity_encode.2.2.1 3 9,
   C2_useEntity_encode.2.2.2 10 ⟨5, 0, none, some 1⟩ _ (by
     simp [UseEntity.to_u8, List.append_assoc])⟩

/-- C3: CraftingBookData decode reads the leading varint tag; tag 0 reads
one 32-bit signed integer into displayed_recipe, tag 1 reads two booleans
into crafting_book_status, and any other tag value fails with an
InvalidVariant failure carrying that tag, returning no partial packet. -/
theorem C3_craftingBookData_decode :
    (∀ r rest, -(2 ^ 31) ≤ r → r < 2 ^ 31 →
      CraftingBookData.deserialize (write_varint 0 ++ write_i32 r ++ rest)
        = .ok (.CraftingBookData ⟨some r, none⟩, rest)) ∧
    (∀ b1 b2 rest,
      CraftingBookData.deserialize
          (write_varint 1 ++ write_bool b1 ++ write_bool b2 ++ rest)
        = .ok (.CraftingBookData ⟨none, some (b1, b2)⟩, rest)) ∧
    (∀ t rest, 2 ≤ t → t < 128 ^ 5 →
      CraftingBookData.deserialize (write_varint t ++ rest)
        = .error (.invalidVariant t)) := by
  refine ⟨?_, ?_, ?_⟩
  · intro r rest h1 h2
    simp [CraftingBookData.deserialize, List.append_assoc,
      read_write_varint _ _ (by norm_num : (0:Nat) < 128 ^ 5),
      read_write_i32 _ _ h1 h2]
  · intro b1 b2 rest
    simp [CraftingBookData.deserialize, List.append_assoc,
      read_write_varint _ _ (by norm_num : (1:Nat) < 128 ^ 5), read_write_bool]
  · intro t rest h2 h5
    obtain ⟨k, rfl⟩ : ∃ k, t = k + 2 := ⟨t - 2, by omega⟩
    simp [CraftingBookData.deserialize, read_write_varint _ _ h5]

/-- Witness for C3: tag 0 with recipe 7, tag 1 with both booleans, and
the spec's example of tag 2 failing with InvalidVariant 2. -/
theorem C3_craftingBookData_decode_witness :
    CraftingBookData.deserialize (write_varint 0 ++ write_i32 7 ++ [9])
      = .ok (.CraftingBookData ⟨some 7, none⟩, [9]) ∧
    CraftingBookData.deserialize
        (write_varint 1 ++ write_bool true ++ write_bool false ++ [9])
      = .ok (.CraftingBookData ⟨none, some (true, false)⟩, [9]) ∧
    CraftingBookData.deserialize (write_varint 2 ++ [9])
      = .error (.invalidVariant 2) :=
  ⟨C3_craftingBookData_decode.1 7 [9] (by norm_num) (by norm_num),
   C3_craftingBookData_decode.2.1 true false [9],
   C3_craftingBookData_decode.2.2 2 [9] (by norm_num) (by norm_num)⟩

/-- C4: the handshake phase transition is a pure total function of the
stored next_state integer: 1 maps to Status, 2 maps to Login, and every
other integer value maps to none; being `Option`-valued and total, it
never fails with an error. -/
theorem C4_get_next_clientstate (h : Handshake) :
    (h.next_state = 1 → h.get_next_clientstate = some ClientState.Status) ∧
    (h.next_state = 2 → h.get_next_clientstate = some ClientState.Login) ∧
    (h.next_state ≠ 1 → h.next_state ≠ 2 → h.get_next_clientstate = none) := by
  obtain ⟨ns⟩ := h
  refine ⟨?_, ?_, ?_⟩
  · rintro rfl; rfl
  · rintro rfl; rfl
  · intro h1 h2
    simp only [Handshake.get_next_clientstate]

/-- Witness for C4: the four spec examples — nextPhase of 1, 2, 0 and
99. -/
theorem C4_get_next_clientstate_witness :
    Handshake.get_next_clientstate ⟨1⟩ = some ClientState.Status ∧
    Handshake.get_next_clientstate ⟨2⟩ = some ClientState.Login ∧
    Handshake.get_next_clientstate ⟨0⟩ = none ∧
    Handshake.get_next_clientstate ⟨99⟩ = none :=
  ⟨(C4_get_next_clientstate ⟨1⟩).1 rfl,
   (C4_get_next_clientstate ⟨2⟩).2.1 rfl,
   (C4_get_next_clientstate ⟨0⟩).2.2 (by norm_num) (by norm_num),
   (C4_get_next_clientstate ⟨99⟩).2.2 (by norm_num) (by norm_num)⟩

/-- C5: decrypting the shared secret fails with InvalidSecretLength
whenever the RSA-decrypted plaintext has any length other than 16 bytes,
and when the plaintext is exactly 16 bytes it succeeds and returns those
16 bytes unchanged. -/
theorem C5_decrypt_shared_secret
    (rsaDecrypt : List Nat → Except PacketError (List Nat))
    (p : EncryptionResponse) (tmp : List Nat)
    (h : rsaDecrypt p.shared_secret = .ok tmp) :
    (tmp.length ≠ 16 →
      EncryptionResponse.get_decrypted_shared_secret rsaDecrypt p
        = .error .invalidSecretLength) ∧
    (tmp.length = 16 →
      EncryptionResponse.get_decrypted_shared_secret rsaDecrypt p = .ok tmp) := by
  constructor
  · intro hlen
    simp [EncryptionResponse.get_decrypted_shared_secret, h, hlen]
  · intro hlen
    have hmap : (List.range 16).map (fun i => tmp.getD i 0) = tmp := by
      apply List.ext_getElem
      · simp [hlen]
      · intro i h1 h2
        simp only [List.getElem_map, List.getElem_range]
        rw [List.getD_eq_getElem]
    simp only [EncryptionResponse.get_decrypted_shared_secret, h]
    rw [if_neg (show ¬ tmp.length ≠ 16 by omega), hmap]

/-- Witness for C5: a 15-byte plaintext fails with InvalidSecretLength, a
16-byte plaintext is returned unchanged. -/
theorem C5_decrypt_shared_secret_witness :
    EncryptionResponse.get_decrypted_shared_secret
        (fun _ => .ok (List.replicate 15 0)) ⟨[1], [2]⟩
      = .error .invalidSecretLength ∧
    EncryptionResponse.get_decrypted_shared_secret
        (fun _ => .ok (List.replicate 16 9)) ⟨[1], [2]⟩
      = .ok (List.replicate 16 9) :=
  ⟨(C5_decrypt_shared_secret (fun _ => .ok (List.replicate 15 0)) ⟨[1], [2]⟩
      (List.replicate 15 0) rfl).1 (by simp),
   (C5_decrypt_shared_secret (fun _ => .ok (List.replicate 16 9)) ⟨[1], [2]⟩
      (List.replicate 16 9) rfl).2 (by simp)⟩

/-- C6: encoding the TabComplete payload with text "foo" (bytes 102, 111,
111), assume_command true and no looked-at block produces exactly the
packet id, the length-prefixed string, boolean byte 1, boolean byte 0,
with no position bytes, and decoding those exact bytes reproduces the
payload; in general the emitted presence flag equals whether
looked_at_block is set, and decode reads the flag literally and reads a
position exactly when the flag is true. -/
theorem C6_tabComplete_example :
    (∀ pid, TabComplete.to_u8 pid ⟨[102, 111, 111], true, none⟩
      = .ok (write_varint pid ++ [3, 102, 111, 111, 1, 0])) ∧
    (∀ rest, TabComplete.deserialize ([3, 102, 111, 111, 1, 0] ++ rest)
      = .ok (.TabComplete ⟨[102, 111, 111], true, none⟩, rest)) ∧
    (∀ pid p, TabComplete.to_u8 pid p
      = .ok (write_varint pid ++ write_String p.text ++
          write_bool p.assume_command ++ write_bool p.looked_at_block.isSome ++
          (match p.looked_at_block with
           | some x => write_position x
           | none => []))) ∧
    (∀ text b rest, text.length < 2 ^ 32 →
      TabComplete.deserialize
          (write_String text ++ write_bool b ++ write_bool false ++ rest)
        = .ok (.TabComplete ⟨text, b, none⟩, rest)) ∧
    (∀ text b pos rest, text.length < 2 ^ 32 → pos < 2 ^ 64 →
      TabComplete.deserialize
          (write_String text ++ write_bool b ++ write_bool true ++
           write_position pos ++ rest)
        = .ok (.TabComplete ⟨text, b, some pos⟩, rest)) := by
  have h3 : write_varint 3 = [3] := by simp [write_varint]
  refine ⟨?_, ?_, ?_, ?_, ?_⟩
  · intro pid
    simp [TabComplete.to_u8, write_String, write_bool, h3, List.append_assoc]
  · intro rest
    rfl
  · intro pid p
    cases hl : p.looked_at_block with
    | none => simp [TabComplete.to_u8, hl, List.append_assoc]
    | some x => simp [TabComplete.to_u8, hl, List.append_assoc]
  · intro text b rest ht
    simp [TabComplete.deserialize, List.append_assoc,
      read_write_String _ _ (lt_pow5_of_lt_pow32 ht), read_write_bool]
  · intro text b pos rest ht hp
    simp [TabComplete.deserialize, List.append_assoc,
      read_write_String _ _ (lt_pow5_of_lt_pow32 ht), read_write_bool,
      read_write_position _ _ hp]

/-- Witness for C6: the decode conjuncts applied to the "foo" payload
with flag false, and to a concrete payload with flag true and position
12. -/
theorem C6_tabComplete_example_witness :
    TabComplete.deserialize
        (write_String [102, 111, 111] ++ write_bool true ++ write_bool false ++ [5])
      = .ok (.TabComplete ⟨[102, 111, 111], true, none⟩, [5]) ∧
    TabComplete.deserialize
        (write_String [102, 111, 111] ++ write_bool true ++ write_bool true ++
         write_position 12 ++ [5])
      = .ok (.TabComplete ⟨[102, 111, 111], true, some 12⟩, [5]) :=
  ⟨C6_tabComplete_example.2.2.2.1 [102, 111, 111] true [5] (by norm_num),
   C6_tabComplete_example.2.2.2.2 [102, 111, 111] true 12 [5]
     (by norm_num) (by norm_num)⟩

/-- C7: AdvancementTab encode emits tag 0 followed by the tab-id string
when tab_id is set and tag 1 with no further bytes when it is not;
decode maps tag 0 to reading a string, tag 1 to no tab id, and fails with
an InvalidVariant failure carrying the tag for any other tag value. -/
theorem C7_advancementTab :
    (∀ pid t, AdvancementTab.to_u8 pid ⟨some t⟩
      = .ok (write_varint pid ++ write_varint 0 ++ write_String t)) ∧
    (∀ pid, AdvancementTab.to_u8 pid ⟨none⟩
      = .ok (write_varint pid ++ write_varint 1)) ∧
    (∀ t rest, t.length < 2 ^ 32 →
      AdvancementTab.deserialize (write_varint 0 ++ write_String t ++ rest)
        = .ok (.AdvancementTab ⟨some t⟩, rest)) ∧
    (∀ rest, AdvancementTab.deserialize (write_varint 1 ++ rest)
      = .ok (.AdvancementTab ⟨none⟩, rest)) ∧
    (∀ tag rest, 2 ≤ tag → tag < 128 ^ 5 →
      AdvancementTab.deserialize (write_varint tag ++ rest)
        = .error (.invalidVariant tag)) := by
  refine ⟨?_, ?_, ?_, ?_, ?_⟩
  · intro pid t
    simp [AdvancementTab.to_u8, List.append_assoc]
  · intro pid
    simp [AdvancementTab.to_u8]
  · intro t rest ht
    simp [AdvancementTab.deserialize, List.append_assoc,
      read_write_varint _ _ (by norm_num : (0:Nat) < 128 ^ 5),
      read_write_String _ _ (lt_pow5_of_lt_pow32 ht)]
  · intro rest
    simp [AdvancementTab.deserialize,
      read_write_varint _ _ (by norm_num : (1:Nat) < 128 ^ 5)]
  · intro tag rest h2 h5
    obtain ⟨k, rfl⟩ : ∃ k, tag = k + 2 := ⟨tag - 2, by omega⟩
    simp [AdvancementTab.deserialize, read_write_varint _ _ h5]

/-- Witness for C7: tag 0 with the string "root" (bytes 114, 111, 111,
116), and tag 2 failing with InvalidVariant 2. -/
theorem C7_advancementTab_witness :
    AdvancementTab.deserialize
        (write_varint 0 ++ write_String [114, 111, 111, 116] ++ [5])
      = .ok (.AdvancementTab ⟨some [114, 111, 111, 116]⟩, [5]) ∧
    AdvancementTab.deserialize (write_varint 2 ++ [5])
      = .error (.invalidVariant 2) :=
  ⟨C7_advancementTab.2.2.1 [114, 111, 111, 116] [5] (by norm_num),
   C7_advancementTab.2.2.2.2 2 [5] (by norm_num) (by norm_num)⟩

/-- C8: encoding the CraftingBookData payload in which both optional
fields are absent succeeds and emits only the packet id, with no variant
tag and no body bytes. -/
theorem C8_craftingBookData_empty (pid : Nat) :
    CraftingBookData.to_u8 pid ⟨none, none⟩ = .ok (write_varint pid) := by
  simp [CraftingBookData.to_u8]

theorem read_location_shape (action : Nat) (s : List Nat)
    (loc : Option (Nat × Nat × Nat)) (s6 : List Nat)
    (h : UseEntity.read_location action s = .ok (loc, s6)) :
    loc.isSome ↔ action = 2 := by
  unfold UseEntity.read_location at h
  by_cases ha : action = 2
  · rw [if_pos ha] at h
    cases h1 : read_f32 s with
    | error e => rw [h1] at h; simp at h
    | ok v =>
      obtain ⟨x, s3⟩ := v
      rw [h1] at h
      dsimp only at h
      cases h2 : read_f32 s3 with
      | error e => rw [h2] at h; simp at h
      | ok v2 =>
        obtain ⟨y, s4⟩ := v2
        rw [h2] at h
        dsimp only at h
        cases h3 : read_f32 s4 with
        | error e => rw [h3] at h; simp at h
        | ok v3 =>
          obtain ⟨z, s5⟩ := v3
          rw [h3] at h
          dsimp only at h
          simp only [Except.ok.injEq, Prod.mk.injEq] at h
          simp [← h.1, ha]
  · rw [if_neg ha] at h
    simp only [Except.ok.injEq, Prod.mk.injEq] at h
    simp [← h.1, ha]

theorem read_hand_shape (action : Nat) (s : List Nat)
    (hand : Option Nat) (s8 : List Nat)
    (h : UseEntity.read_hand action s = .ok (hand, s8)) :
    hand.isSome ↔ (action = 0 ∨ action = 2) := by
  unfold UseEntity.read_hand at h
  by_cases ha : action = 0 ∨ action = 2
  · rw [if_pos ha] at h
    cases h1 : read_varint s with
    | error e => rw [h1] at h; simp at h
    | ok v =>
      obtain ⟨x, s7⟩ := v
      rw [h1] at h
      dsimp only at h
      simp only [Except.ok.injEq, Prod.mk.injEq] at h
      simp [← h.1, ha]
  · rw [if_neg ha] at h
    simp only [Except.ok.injEq, Prod.mk.injEq] at h
    simp [← h.1, ha]

theorem useEntity_to_u8_ok (pid : Nat) (p : UseEntity)
    (hl : p.location.isSome ↔ p.action = 2)
    (hh : p.hand.isSome ↔ (p.action = 0 ∨ p.action = 2)) :
    ∃ bytes, UseEntity.to_u8 pid p = .ok bytes := by
  by_cases ha2 : p.action = 2
  · obtain ⟨⟨x, y, z⟩, hloc⟩ := Option.isSome_iff_exists.mp (hl.mpr ha2)
    obtain ⟨hd, hhand⟩ := Option.isSome_iff_exists.mp (hh.mpr (Or.inr ha2))
    exact ⟨write_varint pid ++ (write_varint p.target ++ (write_varint 2 ++
        (write_f32 x ++ (write_f32 y ++ (write_f32 z ++ write_varint hd))))),
      by simp [UseEntity.to_u8, ha2, hloc, hhand, List.append_assoc]⟩
  · by_cases ha0 : p.action = 0
    · obtain ⟨hd, hhand⟩ := Option.isSome_iff_exists.mp (hh.mpr (Or.inl ha0))
      exact ⟨write_varint pid ++ (write_varint p.target ++
          (write_varint 0 ++ write_varint hd)),
        by simp [UseEntity.to_u8, ha2, ha0, hhand, List.append_assoc]⟩
    · exact ⟨write_varint pid ++ (write_varint p.target ++ write_varint p.action),
        by simp [UseEntity.to_u8, ha2, ha0, List.append_assoc]⟩

/-- C9: every UseEntity payload produced by a successful decode satisfies
the encode invariants — the location is set exactly when action is 2 and
the hand exactly when action is 0 or 2 — so re-encoding a successfully
decoded payload never fails. -/
theorem C9_useEntity_decode_invariant (s : List Nat) (p : UseEntity)
    (s' : List Nat)
    (h : UseEntity.deserialize s = .ok (.UseEntity p, s')) :
    (p.location.isSome ↔ p.action = 2) ∧
    (p.hand.isSome ↔ (p.action = 0 ∨ p.action = 2)) ∧
    (∀ pid, ∃ bytes, UseEntity.to_u8 pid p = .ok bytes) := by
  unfold UseEntity.deserialize at h
  cases h1 : read_varint s with
  | error e => rw [h1] at h; simp at h
  | ok v =>
    obtain ⟨target, s1⟩ := v
    rw [h1] at h
    dsimp only at h
    cases h2 : read_varint s1 with
    | error e => rw [h2] at h; simp at h
    | ok v2 =>
      obtain ⟨action, s2⟩ := v2
      rw [h2] at h
      dsimp only at h
      cases h3 : UseEntity.read_location action s2 with
      | error e => rw [h3] at h; simp at h
      | ok v3 =>
        obtain ⟨location, s6⟩ := v3
        rw [h3] at h
        dsimp only at h
        cases h4 : UseEntity.read_hand action s6 with
        | error e => rw [h4] at h; simp at h
        | ok v4 =>
          obtain ⟨hand, s8⟩ := v4
          rw [h4] at h
          dsimp only at h
          simp only [Except.ok.injEq, Prod.mk.injEq] at h
          obtain ⟨hpkt, _⟩ := h
          have hp : p = ⟨target, action, location, hand⟩ := by
            injection hpkt with h5
            exact h5.symm
          subst hp
          have hli := read_location_shape action s2 location s6 h3
          have hhi := read_hand_shape action s6 hand s8 h4
          exact ⟨hli, hhi,
            fun pid => useEntity_to_u8_ok pid ⟨target, action, location, hand⟩ hli hhi⟩

/-- Witness for C9: the stream [5, 1] decodes to target 5, action 1, no
location and no hand, and that payload satisfies the invariants and
re-encodes successfully. -/
theorem C9_useEntity_decode_invariant_witness :
    (((⟨5, 1, none, none⟩ : UseEntity).location.isSome ↔
        (⟨5, 1, none, none⟩ : UseEntity).action = 2) ∧
     ((⟨5, 1, none, none⟩ : UseEntity).hand.isSome ↔
        ((⟨5, 1, none, none⟩ : UseEntity).action = 0 ∨
         (⟨5, 1, none, none⟩ : UseEntity).action = 2)) ∧
     (∀ pid, ∃ bytes, UseEntity.to_u8 pid ⟨5, 1, none, none⟩ = .ok bytes)) :=
  C9_useEntity_decode_invariant [5, 1] ⟨5, 1, none, none⟩ [] rfl

/-- C10: for every CraftingBookData payload with both optional fields
set, encode takes the displayed_recipe branch — it emits tag 0 and the
32-bit recipe integer only, and the crafting_book_status fields
contribute no bytes. -/
theorem C10_craftingBookData_both (pid : Nat) (r : Int) (st : Bool × Bool) :
    CraftingBookData.to_u8 pid ⟨some r, some st⟩
      = .ok (write_varint pid ++ write_varint 0 ++ write_i32 r) := by
  simp [CraftingBookData.to_u8, List.append_assoc]
